import Mathlib

/-!
Verification development for the founder-scout discovery script
(src/scout.py).  The Python source is shallowly embedded: its pure
pieces (string filters, the scorer, deduplication, sorting, output
projection) become Lean functions over a record type mirroring the
founder dictionaries, and the effectful pieces (HTTP calls, prints,
the output file) are modelled by explicit event traces parameterised
over the responses the network would deliver.
-/

/-! ## String helpers (Python `str.lower`, `kw in text`, `a or b`) -/

/-- Model of Python `s.lower()`: lower-case every character. -/
def lowerStr (s : String) : String := ⟨s.data.map Char.toLower⟩

/-- Model of Python substring containment `kw in text`, on char lists:
true iff `kw` occurs contiguously inside the second list. -/
def substrB (kw : List Char) : List Char → Bool
  | [] => kw.isEmpty
  | c :: rest => kw.isPrefixOf (c :: rest) || substrB kw rest

/-- Model of Python `kw in text` on strings. -/
def containsKw (kw text : String) : Bool := substrB kw.data text.data

/-- Model of Python `a or b` for an optional string `a`: `None` and the
empty string are falsy, so both fall through to `b`. -/
def pyOrStr (a : Option String) (b : String) : String :=
  match a with
  | none => b
  | some s => if s = "" then b else s

/-- Region filter used by the adapters (src/scout.py lines 68-73 and
172-177): lower-case the location text, defaulting absent text to the
empty string, then test substring containment of any keyword. -/
def matchesRegion (text : Option String) (kws : List String) : Bool :=
  kws.any (fun kw => containsKw kw (lowerStr (pyOrStr text "")))

/-- Keyword allowlist of the trending adapter (src/scout.py lines 69-71). -/
def india_keywords_trending : List String :=
  ["india", "bangalore", "bengaluru", "mumbai", "delhi",
   "hyderabad", "chennai", "pune", "kolkata", "gurgaon",
   "noida", "ahmedabad", "jaipur", "kochi", "indore"]

/-- Keyword allowlist of the star-velocity adapter (src/scout.py lines 174-175). -/
def india_keywords_velocity : List String :=
  ["india", "bangalore", "bengaluru", "mumbai",
   "delhi", "hyderabad", "chennai", "pune"]

/-! ## Data model -/

/-- The score dictionary attached to a founder record
(src/scout.py lines 432-438). -/
structure Scores where
  growth : ℚ
  velocity : ℚ
  hidden_gem : ℚ
  pioneer : ℚ
  overall_score : ℚ
  deriving Repr, DecidableEq

/-- A founder record as the adapters build it.  Fields the adapters
leave out of a given dictionary are modelled by their Python-side
defaults (`dict.get` with default 0 or the empty string), and the two
keys the scorer adds are `Option`-valued so that their absence before
scoring is explicit. -/
structure Founder where
  username : String
  name : String := ""
  bioText : String := ""
  locationText : String := ""
  followers : ℕ := 0
  public_repos : ℕ := 0
  trending_repo : String := ""
  repo_stars : ℕ := 0
  repo_description : String := ""
  contributed_to : String := ""
  contributions : ℕ := 0
  discovery_method : String := ""
  avatar_url : String := ""
  html_url : String := ""
  company : String := ""
  blog : String := ""
  twitter : String := ""
  scores : Option Scores := none
  overall_score : Option ℚ := none
  deriving Repr, DecidableEq

/-! ## Scorer (src/scout.py lines 403-441) -/

/-- Growth sub-score: `min(100, followers / 10 + repo_stars / 5)`
(src/scout.py line 407). -/
def growth_raw (f : Founder) : ℚ :=
  min 100 ((f.followers : ℚ) / 10 + (f.repo_stars : ℚ) / 5)

/-- Velocity sub-score before the bio bonus:
`min(100, 50 + contributions * 2)` (src/scout.py line 410). -/
def velocity_base (f : Founder) : ℚ :=
  min 100 (50 + (f.contributions : ℚ) * 2)

/-- Hidden-gem sub-score:
`min(100, repos * 3 - followers / 20 + 50)` (src/scout.py line 413). -/
def hidden_raw (f : Founder) : ℚ :=
  min 100 ((f.public_repos : ℚ) * 3 - (f.followers : ℚ) / 20 + 50)

/-- Discovery-method bonus table (src/scout.py lines 415-421), with
default 0 for unknown method tags as in `dict.get(..., 0)`. -/
def method_bonus (m : String) : ℚ :=
  if m = "trending" then 30
  else if m = "star_velocity" then 25
  else if m = "contributor" then 20
  else if m = "keyword" then 10
  else if m = "huggingface" then 15
  else 0

/-- Bio keywords that add 15 to the pioneer score (src/scout.py line 425). -/
def founder_kws : List String := ["founder", "ceo", "cto", "building", "yc"]

/-- Bio keywords that add 10 to the velocity score (src/scout.py line 427). -/
def ai_kws : List String := ["ai", "ml", "llm", "agent", "langchain"]

/-- Lower-cased bio keyword test: `any(kw in bio for kw in kws)` over
`(founder.get('bio') or '').lower()` (src/scout.py line 424). -/
def bioHasAny (bioT : String) (kws : List String) : Bool :=
  kws.any (fun kw => containsKw kw (lowerStr bioT))

/-- Pioneer sub-score after bonuses: `50 + method bonus`, plus 15 for a
founder-flavoured bio (src/scout.py lines 422-426).  Never clamped. -/
def pioneer_raw (f : Founder) : ℚ :=
  (50 + method_bonus f.discovery_method) +
    (if bioHasAny f.bioText founder_kws then 15 else 0)

/-- Velocity sub-score after the bio bonus (src/scout.py lines 427-428).
The bonus is added after the clamp, so the value can reach 110. -/
def velocity_raw (f : Founder) : ℚ :=
  velocity_base f + (if bioHasAny f.bioText ai_kws then 10 else 0)

/-- Overall score: weighted sum of the four sub-scores, never clamped
(src/scout.py line 430). -/
def overall_raw (f : Founder) : ℚ :=
  growth_raw f * (25 / 100) + velocity_raw f * (25 / 100) +
    hidden_raw f * (20 / 100) + pioneer_raw f * (30 / 100)

/-- Model of Python `round(x, 1)`: round to one decimal place, ties to
the even tenth. -/
def round1 (q : ℚ) : ℚ :=
  let y : ℚ := q * 10
  let n : ℤ := ⌊y⌋
  let frac : ℚ := y - (n : ℚ)
  if frac < 1 / 2 then (n : ℚ) / 10
  else if 1 / 2 < frac then ((n + 1 : ℤ) : ℚ) / 10
  else if n % 2 = 0 then (n : ℚ) / 10 else ((n + 1 : ℤ) : ℚ) / 10

/-- The rounded score dictionary stored on the record
(src/scout.py lines 432-438). -/
def mkScores (f : Founder) : Scores :=
  { growth := round1 (growth_raw f)
    velocity := round1 (velocity_raw f)
    hidden_gem := round1 (hidden_raw f)
    pioneer := round1 (pioneer_raw f)
    overall_score := round1 (overall_raw f) }

/-- The scorer (src/scout.py lines 403-441): returns the input record
with the `scores` dictionary and the top-level `overall_score` set, all
other fields untouched. -/
def calculate_score (f : Founder) : Founder :=
  { f with scores := some (mkScores f)
           overall_score := some (round1 (overall_raw f)) }

/-! ## Aggregation: dedup, sort, output projection, main
(src/scout.py lines 444-545) -/

/-- The dedup loop of `main`: records are appended in order, a record
whose username is already in the seen set is dropped (src/scout.py
lines 455-506, the five per-adapter loops share one seen set, which is
the same as one pass over the concatenated sequence). -/
def dedupBy (seen : List String) : List Founder → List Founder
  | [] => []
  | f :: fs =>
      if f.username ∈ seen then dedupBy seen fs
      else f :: dedupBy (f.username :: seen) fs

/-- Aggregated record list for the fixed adapter order trending,
star-velocity, contributor, keyword, model-hub. -/
def dedupAll (t v c k h : List Founder) : List Founder :=
  dedupBy [] (t ++ v ++ c ++ k ++ h)

/-- Sort key of the final sort: the top-level overall score
(src/scout.py line 510; the key is always present after scoring). -/
def scoreKey (f : Founder) : ℚ := f.overall_score.getD 0

/-- Stable descending insertion for the final sort: a record is placed
before the first record of strictly smaller key, after every record of
greater-or-equal key, which is exactly the stable behaviour of the
reverse sort in src/scout.py line 510. -/
def insertDesc (x : Founder) : List Founder → List Founder
  | [] => [x]
  | y :: ys => if scoreKey y ≤ scoreKey x then x :: y :: ys else y :: insertDesc x ys

/-- Stable descending sort by overall score (src/scout.py line 510). -/
def sortByScoreDesc : List Founder → List Founder
  | [] => []
  | x :: xs => insertDesc x (sortByScoreDesc xs)

/-- One element of the JSON array written at the end of the run
(src/scout.py lines 513-533). -/
structure OutputRec where
  name : String
  username : String
  bioText : String
  locationText : String
  avatar_url : String
  html_url : String
  followers : ℕ
  public_repos : ℕ
  company : String
  blog : String
  twitter : String
  discovery_method : String
  trending_repo : String
  contributed_to : String
  scores : Option Scores
  overall_score : ℚ
  source : String
  deriving Repr, DecidableEq

/-- Output projection of one scored record (src/scout.py lines 515-533). -/
def toOutput (f : Founder) : OutputRec :=
  { name := f.name
    username := f.username
    bioText := f.bioText
    locationText := f.locationText
    avatar_url := f.avatar_url
    html_url := f.html_url
    followers := f.followers
    public_repos := f.public_repos
    company := f.company
    blog := f.blog
    twitter := f.twitter
    discovery_method := f.discovery_method
    trending_repo := f.trending_repo
    contributed_to := f.contributed_to
    scores := f.scores
    overall_score := f.overall_score.getD 0
    source := if f.discovery_method = "huggingface" then "huggingface" else "github" }

/-- The pure tail of `main` (src/scout.py lines 509-533): dedup the five
adapter outputs in order, score every record with the one scorer, sort
descending by overall score, project to the output shape. -/
def pipelineOutput (t v c k h : List Founder) : List OutputRec :=
  (sortByScoreDesc ((dedupAll t v c k h).map calculate_score)).map toOutput

/-- Observable effects of `main`: console prints, network requests, and
the final output-file write. -/
inductive MEv where
  | printMsg (s : String)
  | netRequest
  | writeOutput (fname : String)
  deriving Repr, DecidableEq

/-- Boolean discriminator for network-request events. -/
def isNetEv : MEv → Bool
  | MEv.netRequest => true
  | _ => false

/-- Boolean discriminator for file-write events. -/
def isWriteEv : MEv → Bool
  | MEv.writeOutput _ => true
  | _ => false

/-- Banner separator printed by main: models the Python `"=" * 50`. -/
def sep50 : String := String.mk (List.replicate 50 (Char.ofNat 61))

/-- The `main` entry point (src/scout.py lines 444-545) as a trace
model.  `github_token` is the value of the environment variable;
`adapterNet` is the trace of network activity the five adapters would
produce, supplied as a parameter since the adapters are external HTTP
consumers; the five lists are the records the adapters would yield.
When the token is absent, main prints the diagnostic and returns
before any adapter runs and before the output file is written. -/
def mainRun (github_token : Option String) (adapterNet : List MEv)
    (t v c k h : List Founder) : List MEv × Option (List OutputRec) :=
  let banner : List MEv :=
    [MEv.printMsg sep50,
     MEv.printMsg "FOUNDER SCOUT - Advanced Discovery System",
     MEv.printMsg sep50]
  match github_token with
  | none => (banner ++ [MEv.printMsg "GITHUB_TOKEN not set"], none)
  | some _ =>
      (banner ++ adapterNet ++ [MEv.writeOutput "developers.json"],
       some (pipelineOutput t v c k h))

/-! ## Adapter-call model (src/scout.py lines 59-98 and 136-203) -/

/-- Events of one adapter call: an HTTP request to a URL, or a sleep of
the given number of seconds. -/
inductive Ev where
  | request (url : String)
  | sleepFor (secs : ℚ)
  deriving Repr, DecidableEq

/-- Boolean discriminator for sleep events. -/
def isSleepEv : Ev → Bool
  | Ev.sleepFor _ => true
  | _ => false

/-- Boolean discriminator for request events. -/
def isRequestEv : Ev → Bool
  | Ev.request _ => true
  | _ => false

/-- An HTTP response: status code plus a typed body (the body is only
consulted on status 200). -/
structure HttpResp (α : Type) where
  status : ℕ
  body : α
  deriving Repr

/-- A user profile as returned by the users endpoint; fields that can
be JSON null are optional. -/
structure UserJson where
  login : String := ""
  name : Option String := none
  bioText : Option String := none
  locationText : Option String := none
  followers : ℕ := 0
  public_repos : ℕ := 0
  avatar_url : String := ""
  html_url : String := ""
  company : Option String := none
  blog : Option String := none
  twitter_username : Option String := none
  deriving Repr

/-- A repository body as returned by the repos endpoint. -/
structure RepoJson where
  stargazers_count : ℕ := 0
  description : String := ""
  deriving Repr

/-- Owner segment of a repository path: models `repo_path.split('/')[0]`
(src/scout.py line 62). -/
def ownerOf (repo_path : String) : String :=
  ⟨repo_path.data.takeWhile (fun c => c != '/')⟩

/-- URL of the user-profile request issued for a repository owner
(src/scout.py line 63). -/
def userUrl (owner : String) : String :=
  "https://api.github.com/users/" ++ owner

/-- URL of the repository request (src/scout.py line 76). -/
def repoUrl (repo_path : String) : String :=
  "https://api.github.com/repos/" ++ repo_path

/-- The trending-adapter owner lookup (src/scout.py lines 59-98) as a
trace model over the two responses the network would deliver.  Any
non-200 user response, the rate-limit status 403 included, makes the
call return absent data at once: there is no sleep and no retry in the
source.  On success the owner is kept only when the location passes
the region filter, and the repository request is then issued, its body
defaulting to empty on non-200. -/
def get_repo_owner_details (repo_path : String)
    (userResp : HttpResp UserJson) (repoResp : HttpResp RepoJson) :
    List Ev × Option Founder :=
  let owner := ownerOf repo_path
  if userResp.status ≠ 200 then ([Ev.request (userUrl owner)], none)
  else
    let user := userResp.body
    if ¬ matchesRegion user.locationText india_keywords_trending then
      ([Ev.request (userUrl owner)], none)
    else
      let repo : RepoJson :=
        if repoResp.status = 200 then repoResp.body else {}
      ([Ev.request (userUrl owner), Ev.request (repoUrl repo_path)],
       some { username := user.login
              name := pyOrStr user.name user.login
              bioText := pyOrStr user.bioText ""
              locationText := pyOrStr user.locationText ""
              followers := user.followers
              public_repos := user.public_repos
              trending_repo := repo_path
              repo_stars := repo.stargazers_count
              repo_description := repo.description
              discovery_method := "trending"
              avatar_url := user.avatar_url
              html_url := user.html_url
              company := pyOrStr user.company ""
              blog := pyOrStr user.blog ""
              twitter := pyOrStr user.twitter_username "" })

/-- One repository item of a search response (src/scout.py lines 161-162). -/
structure RepoItem where
  owner_login : String := ""
  full_name : String := ""
  stargazers_count : ℕ := 0
  description : String := ""
  deriving Repr

/-- Founder record built by the star-velocity adapter for one owner
(src/scout.py lines 178-194). -/
def mkVelocityFounder (user : UserJson) (repo : RepoItem) : Founder :=
  { username := user.login
    name := pyOrStr user.name user.login
    bioText := pyOrStr user.bioText ""
    locationText := pyOrStr user.locationText ""
    followers := user.followers
    public_repos := user.public_repos
    trending_repo := repo.full_name
    repo_stars := repo.stargazers_count
    repo_description := repo.description
    discovery_method := "star_velocity"
    avatar_url := user.avatar_url
    html_url := user.html_url
    company := pyOrStr user.company ""
    blog := pyOrStr user.blog ""
    twitter := pyOrStr user.twitter_username "" }

/-- Per-item step of the star-velocity adapter (src/scout.py lines
161-197): skip seen owners, fetch the owner profile through the
response oracle, keep the owner when the profile call succeeds and the
location passes the region filter. -/
def velocityItem (oracle : String → HttpResp UserJson)
    (acc : List Founder × List String) (repo : RepoItem) :
    List Founder × List String :=
  if repo.owner_login ∈ acc.2 then acc
  else
    let seen := repo.owner_login :: acc.2
    let uresp := oracle repo.owner_login
    if uresp.status = 200 then
      if matchesRegion uresp.body.locationText india_keywords_velocity then
        (acc.1 ++ [mkVelocityFounder uresp.body repo], seen)
      else (acc.1, seen)
    else (acc.1, seen)

/-- Per-query step of the star-velocity adapter (src/scout.py lines
152-199): a non-200 search response contributes nothing and the loop
moves on to the next query. -/
def velocityQuery (oracle : String → HttpResp UserJson)
    (acc : List Founder × List String) (q : HttpResp (List RepoItem)) :
    List Founder × List String :=
  if q.status = 200 then q.body.foldl (velocityItem oracle) acc else acc

/-- The star-velocity adapter loop (src/scout.py lines 136-203) over
the list of search responses the network would deliver, one per query. -/
def find_rising_stars (oracle : String → HttpResp UserJson)
    (queries : List (HttpResp (List RepoItem))) : List Founder :=
  (queries.foldl (velocityQuery oracle) ([], [])).1

/-! ## Concrete example records used by the theorems below -/

/-- A founder with many followers and no repositories: the hidden-gem
formula goes negative on this record. -/
def exNegGem : Founder :=
  { username := "gemuser", followers := 2000, public_repos := 0,
    discovery_method := "keyword" }

/-- A founder whose contribution count saturates the velocity clamp and
whose bio then adds the AI bonus on top of it. -/
def exVel : Founder :=
  { username := "veluser", contributions := 25, bioText := "ai",
    discovery_method := "contributor" }

/-- A founder maximising every sub-score: overall score 101, above 100. -/
def exBig : Founder :=
  { username := "big", bioText := "founder of ai", followers := 1000,
    public_repos := 34, contributions := 25, discovery_method := "trending" }

/-- The end-to-end scenario record of the spec: 200 followers and 500
stars attributed to the record. -/
def exScenario : Founder :=
  { username := "sc", followers := 200, repo_stars := 500,
    public_repos := 20, discovery_method := "star_velocity" }

/-- A corporate-affiliated record: company and bio both carry a
corporate keyword. -/
def exCorp : Founder :=
  { username := "corpdev", bioText := "Engineer at Google",
    company := "Google", discovery_method := "keyword" }

/-- A plain record used to instantiate frame and determinism facts. -/
def exPlain : Founder :=
  { username := "plain", followers := 7, public_repos := 3,
    discovery_method := "huggingface" }

/-- Insertion-order records with overall scores 80, 95, 80 for the
sort-stability scenario. -/
def ex80a : Founder := { username := "first80", overall_score := some 80 }

/-- The 95-score record of the sort-stability scenario. -/
def ex95 : Founder := { username := "mid95", overall_score := some 95 }

/-- The second 80-score record of the sort-stability scenario. -/
def ex80b : Founder := { username := "second80", overall_score := some 80 }

/-- A rate-limited user response (status 403). -/
def exUser403 : HttpResp UserJson := { status := 403, body := {} }

/-- A failing user response with a non-rate-limit status. -/
def exUser404 : HttpResp UserJson := { status := 404, body := {} }

/-- A successful, empty repository response. -/
def exRepoOk : HttpResp RepoJson := { status := 200, body := {} }

/-- A response oracle that always fails with status 404. -/
def exOracle404 : String → HttpResp UserJson := fun _ => exUser404

/-- A failing search response for the star-velocity loop. -/
def exSearch500 : HttpResp (List RepoItem) := { status := 500, body := [] }

/-! ## Rounding lemmas -/

/-- Rounding to one decimal is the identity on exact tenths. -/
theorem round1_eq_self {q : ℚ} {n : ℤ} (h : q * 10 = (n : ℚ)) : round1 q = q := by
  have hfl : ⌊q * 10⌋ = n := by rw [h]; exact Int.floor_intCast n
  have h2 : q = (n : ℚ) / 10 := by
    field_simp
    linarith
  simp only [round1, hfl, h]
  norm_num
  exact h2.symm

/-- Rounding to one decimal never overshoots an exact-tenth upper bound. -/
theorem round1_le {x b : ℚ} {m : ℤ} (hb : b * 10 = (m : ℚ)) (h : x ≤ b) :
    round1 x ≤ b := by
  have hy : x * 10 ≤ (m : ℚ) := by rw [← hb]; nlinarith
  have hn : ⌊x * 10⌋ ≤ m := by
    have h10 := Int.floor_le_floor hy
    rwa [Int.floor_intCast] at h10
  have hb' : b = (m : ℚ) / 10 := by field_simp; linarith
  have hfle : (⌊x * 10⌋ : ℚ) ≤ x * 10 := Int.floor_le _
  have hsucc : (1 : ℚ) / 2 ≤ x * 10 - (⌊x * 10⌋ : ℚ) → (⌊x * 10⌋ : ℤ) + 1 ≤ m := by
    intro hge
    rcases lt_or_eq_of_le hn with hlt | heq
    · omega
    · exfalso
      rw [heq] at hge
      linarith
  simp only [round1]
  split_ifs with h1 h2 h3
  · have : (⌊x * 10⌋ : ℚ) ≤ (m : ℚ) := by exact_mod_cast hn
    rw [hb']; linarith
  · have : ((⌊x * 10⌋ + 1 : ℤ) : ℚ) ≤ (m : ℚ) := by
      exact_mod_cast hsucc (le_of_not_lt h1)
    rw [hb']; push_cast at this ⊢; linarith
  · have : (⌊x * 10⌋ : ℚ) ≤ (m : ℚ) := by exact_mod_cast hn
    rw [hb']; linarith
  · have : ((⌊x * 10⌋ + 1 : ℤ) : ℚ) ≤ (m : ℚ) := by
      exact_mod_cast hsucc (le_of_not_lt h1)
    rw [hb']; push_cast at this ⊢; linarith

/-- Rounding to one decimal never undershoots an exact-tenth lower bound. -/
theorem round1_ge {x b : ℚ} {m : ℤ} (hb : b * 10 = (m : ℚ)) (h : b ≤ x) :
    b ≤ round1 x := by
  have hy : (m : ℚ) ≤ x * 10 := by rw [← hb]; nlinarith
  have hn : m ≤ ⌊x * 10⌋ := Int.le_floor.mpr hy
  have hb' : b = (m : ℚ) / 10 := by field_simp; linarith
  have hcast : (m : ℚ) ≤ (⌊x * 10⌋ : ℚ) := by exact_mod_cast hn
  simp only [round1]
  split_ifs with h1 h2 h3
  · rw [hb']; linarith
  · rw [hb']; push_cast; linarith
  · rw [hb']; linarith
  · rw [hb']; push_cast; linarith

/-! ## Sub-score bounds -/

/-- The discovery-method bonus is between 0 and 30. -/
theorem method_bonus_bounds (m : String) :
    0 ≤ method_bonus m ∧ method_bonus m ≤ 30 := by
  unfold method_bonus
  split_ifs <;> norm_num

/-- The growth sub-score is clamped into the unit-hundred interval. -/
theorem growth_raw_bounds (f : Founder) :
    0 ≤ growth_raw f ∧ growth_raw f ≤ 100 := by
  refine ⟨le_min (by norm_num) (by positivity), min_le_left _ _⟩

/-- The velocity sub-score before the bio bonus lies in [50, 100]. -/
theorem velocity_base_bounds (f : Founder) :
    50 ≤ velocity_base f ∧ velocity_base f ≤ 100 := by
  have hc : (0 : ℚ) ≤ (f.contributions : ℚ) := by positivity
  exact ⟨le_min (by norm_num) (by linarith), min_le_left _ _⟩

/-- The velocity sub-score after the bio bonus lies in [50, 110]. -/
theorem velocity_raw_bounds (f : Founder) :
    50 ≤ velocity_raw f ∧ velocity_raw f ≤ 110 := by
  obtain ⟨h0, h1⟩ := velocity_base_bounds f
  unfold velocity_raw
  split_ifs <;> constructor <;> linarith

/-- The pioneer sub-score lies in [50, 95]. -/
theorem pioneer_raw_bounds (f : Founder) :
    50 ≤ pioneer_raw f ∧ pioneer_raw f ≤ 95 := by
  obtain ⟨h0, h1⟩ := method_bonus_bounds f.discovery_method
  unfold pioneer_raw
  split_ifs <;> constructor <;> linarith

/-- C1, amended.  The sub-scores the scorer actually stores satisfy:
growth lies in [0, 100] and pioneer lies in [50, 95], so both are
within [0, 100]; velocity lies in [50, 110] — the AI-bio bonus is added
after the clamp, so it can exceed 100; hidden_gem is at most 100 but
has no lower clamp.  The overall score is not clamped. -/
theorem claim1_bounds (f : Founder) :
    0 ≤ (mkScores f).growth ∧ (mkScores f).growth ≤ 100 ∧
    50 ≤ (mkScores f).velocity ∧ (mkScores f).velocity ≤ 110 ∧
    (mkScores f).hidden_gem ≤ 100 ∧
    50 ≤ (mkScores f).pioneer ∧ (mkScores f).pioneer ≤ 95 := by
  obtain ⟨hg0, hg1⟩ := growth_raw_bounds f
  obtain ⟨hv0, hv1⟩ := velocity_raw_bounds f
  obtain ⟨hp0, hp1⟩ := pioneer_raw_bounds f
  have hh1 : hidden_raw f ≤ 100 := min_le_left _ _
  refine ⟨?_, ?_, ?_, ?_, ?_, ?_, ?_⟩
  · exact round1_ge (m := 0) (by norm_num) hg0
  · exact round1_le (m := 1000) (by norm_num) hg1
  · exact round1_ge (m := 500) (by norm_num) hv0
  · exact round1_le (m := 1100) (by norm_num) hv1
  · exact round1_le (m := 1000) (by norm_num) hh1
  · exact round1_ge (m := 500) (by norm_num) hp0
  · exact round1_le (m := 950) (by norm_num) hp1

/-- C1, counterexample.  On a record with 2000 followers and no
repositories the stored hidden-gem score is -50, outside [0, 100]; on a
record with 25 contributions and an AI bio the stored velocity score is
110, above 100 even though the claim requires the bio bonus to stay
clamped. -/
theorem claim1_counterexample :
    (mkScores exNegGem).hidden_gem = -50 ∧ (mkScores exNegGem).hidden_gem < 0 ∧
    (mkScores exVel).velocity = 110 ∧ 100 < (mkScores exVel).velocity := by
  have hh : hidden_raw exNegGem = -50 := by
    norm_num [hidden_raw, exNegGem, min_def]
  have hbio : bioHasAny "ai" ai_kws = true := by decide
  have hv : velocity_raw exVel = 110 := by
    norm_num [velocity_raw, velocity_base, exVel, min_def, hbio]
  have e1 : (mkScores exNegGem).hidden_gem = -50 := by
    show round1 (hidden_raw exNegGem) = -50
    rw [hh]
    exact round1_eq_self (n := -500) (by norm_num)
  have e2 : (mkScores exVel).velocity = 110 := by
    show round1 (velocity_raw exVel) = 110
    rw [hv]
    exact round1_eq_self (n := 1100) (by norm_num)
  refine ⟨e1, by rw [e1]; norm_num, e2, by rw [e2]; norm_num⟩

/-! ## Sort lemmas: descending order, permutation, stability -/

/-- Membership in a stable descending insertion. -/
theorem mem_insertDesc {z x : Founder} {l : List Founder} :
    z ∈ insertDesc x l ↔ z = x ∨ z ∈ l := by
  induction l with
  | nil => simp [insertDesc]
  | cons y ys ih =>
      unfold insertDesc
      split_ifs with h
      · simp [List.mem_cons]
      · simp only [List.mem_cons, ih]
        tauto

/-- A stable descending insertion permutes to consing. -/
theorem perm_insertDesc (x : Founder) (l : List Founder) :
    (insertDesc x l).Perm (x :: l) := by
  induction l with
  | nil => simp [insertDesc]
  | cons y ys ih =>
      unfold insertDesc
      split_ifs with h
      · exact List.Perm.refl _
      · exact (ih.cons y).trans (List.Perm.swap x y ys)

/-- The final sort permutes its input: no record is dropped or added. -/
theorem perm_sortDesc (l : List Founder) : (sortByScoreDesc l).Perm l := by
  induction l with
  | nil => exact List.Perm.refl _
  | cons x xs ih =>
      unfold sortByScoreDesc
      exact (perm_insertDesc x _).trans (ih.cons x)

/-- Inserting into a descending list keeps it descending. -/
theorem pairwise_insertDesc {x : Founder} {l : List Founder}
    (h : l.Pairwise (fun a b => scoreKey b ≤ scoreKey a)) :
    (insertDesc x l).Pairwise (fun a b => scoreKey b ≤ scoreKey a) := by
  induction l with
  | nil => simp [insertDesc]
  | cons y ys ih =>
      rw [List.pairwise_cons] at h
      obtain ⟨hy, hys⟩ := h
      unfold insertDesc
      split_ifs with hle
      · rw [List.pairwise_cons]
        refine ⟨?_, by rw [List.pairwise_cons]; exact ⟨hy, hys⟩⟩
        intro z hz
        rcases List.mem_cons.mp hz with rfl | hz'
        · exact hle
        · exact le_trans (hy z hz') hle
      · rw [List.pairwise_cons]
        refine ⟨?_, ih hys⟩
        intro z hz
        rcases mem_insertDesc.mp hz with rfl | hz'
        · exact le_of_lt (lt_of_not_le hle)
        · exact hy z hz'

/-- The final sort yields a descending sequence of overall scores. -/
theorem pairwise_sortDesc (l : List Founder) :
    (sortByScoreDesc l).Pairwise (fun a b => scoreKey b ≤ scoreKey a) := by
  induction l with
  | nil => simp [sortByScoreDesc]
  | cons x xs ih =>
      unfold sortByScoreDesc
      exact pairwise_insertDesc ih

/-- Filtering an insertion at the key of the inserted record: records
skipped on the way in have strictly greater keys, so within one key
value the inserted record still comes first. -/
theorem filter_insertDesc (q : ℚ) (x : Founder) (l : List Founder) :
    (insertDesc x l).filter (fun f => decide (scoreKey f = q)) =
      if scoreKey x = q then
        x :: l.filter (fun f => decide (scoreKey f = q))
      else l.filter (fun f => decide (scoreKey f = q)) := by
  induction l with
  | nil =>
      by_cases hx : scoreKey x = q <;>
        simp [insertDesc, List.filter_cons, hx]
  | cons y ys ih =>
      show (if scoreKey y ≤ scoreKey x then x :: y :: ys
            else y :: insertDesc x ys).filter _ = _
      by_cases hle : scoreKey y ≤ scoreKey x
      · rw [if_pos hle]
        by_cases hx : scoreKey x = q <;> simp [List.filter_cons, hx]
      · rw [if_neg hle]
        by_cases hx : scoreKey x = q
        · have hyq : scoreKey y ≠ q := fun he => hle (le_of_eq (hx ▸ he))
          simp [List.filter_cons, hyq, ih, hx]
        · simp [List.filter_cons, ih, hx]

/-- Stability of the final sort: restricted to any one overall-score
value, the sorted sequence lists the records in insertion order. -/
theorem filter_sortDesc (l : List Founder) (q : ℚ) :
    (sortByScoreDesc l).filter (fun f => decide (scoreKey f = q)) =
      l.filter (fun f => decide (scoreKey f = q)) := by
  induction l with
  | nil => rfl
  | cons x xs ih =>
      show (insertDesc x (sortByScoreDesc xs)).filter _ = _
      rw [filter_insertDesc, List.filter_cons, ih]
      by_cases hx : scoreKey x = q <;> simp [hx]

/-! ## Dedup lemmas -/

/-- Records whose identity is already in the seen set never survive. -/
theorem dedupBy_filter_of_mem (u : String) :
    ∀ (l : List Founder) (seen : List String), u ∈ seen →
      (dedupBy seen l).filter (fun f => decide (f.username = u)) = [] := by
  intro l
  induction l with
  | nil => intro seen _; rfl
  | cons f fs ih =>
      intro seen hu
      unfold dedupBy
      split_ifs with hs
      · exact ih seen hu
      · have hne : f.username ≠ u := fun he => hs (he ▸ hu)
        rw [List.filter_cons]
        simp only [hne, decide_eq_true_eq, if_false]
        exact ih _ (List.mem_cons_of_mem _ hu)

/-- First-seen-wins: the survivors carrying a given identity are
exactly the first input record carrying it. -/
theorem dedupBy_filter_take (u : String) :
    ∀ (l : List Founder) (seen : List String), u ∉ seen →
      (dedupBy seen l).filter (fun f => decide (f.username = u)) =
        (l.filter (fun f => decide (f.username = u))).take 1 := by
  intro l
  induction l with
  | nil => intro seen _; rfl
  | cons f fs ih =>
      intro seen hu
      unfold dedupBy
      split_ifs with hs
      · have hne : f.username ≠ u := fun he => hu (he ▸ hs)
        rw [List.filter_cons]
        simp only [hne, decide_eq_true_eq, if_false]
        exact ih seen hu
      · by_cases hfu : f.username = u
        · subst hfu
          have h1 : (dedupBy (f.username :: seen) fs).filter
              (fun g => decide (g.username = f.username)) = [] :=
            dedupBy_filter_of_mem f.username fs (f.username :: seen)
              (List.mem_cons_self _ _)
          simp [List.filter_cons, h1]
        · have hu' : u ∉ f.username :: seen := by
            intro hmem
            rcases List.mem_cons.mp hmem with he | hmem'
            · exact hfu he.symm
            · exact hu hmem'
          rw [List.filter_cons, List.filter_cons]
          simp only [hfu, decide_eq_true_eq, if_false]
          exact ih _ hu'

/-- Every survivor of the dedup pass has an identity outside the
initial seen set. -/
theorem dedupBy_not_seen :
    ∀ (l : List Founder) (seen : List String) (g : Founder),
      g ∈ dedupBy seen l → g.username ∉ seen := by
  intro l
  induction l with
  | nil => intro seen g hg; simp [dedupBy] at hg
  | cons f fs ih =>
      intro seen g hg
      unfold dedupBy at hg
      split_ifs at hg with hs
      · exact ih seen g hg
      · rcases List.mem_cons.mp hg with rfl | hg'
        · exact hs
        · intro hmem
          exact ih _ g hg' (List.mem_cons_of_mem _ hmem)

/-- The identities surviving the dedup pass are pairwise distinct. -/
theorem dedupBy_nodup :
    ∀ (l : List Founder) (seen : List String),
      ((dedupBy seen l).map Founder.username).Nodup := by
  intro l
  induction l with
  | nil => intro seen; simp [dedupBy]
  | cons f fs ih =>
      intro seen
      unfold dedupBy
      split_ifs with hs
      · exact ih seen
      · rw [List.map_cons, List.nodup_cons]
        refine ⟨?_, ih _⟩
        intro hmem
        rcases List.mem_map.mp hmem with ⟨g, hg, he⟩
        exact dedupBy_not_seen fs (f.username :: seen) g hg
          (he ▸ List.mem_cons_self _ _)

/-- C2.  Deduplication is first-seen-wins over the fixed adapter order
trending, star-velocity, contributor, keyword, model-hub: for every
identity, the aggregated list keeps exactly the first record of the
concatenated adapter outputs carrying that identity (so a record
yielded by an earlier adapter shadows all later ones), and after
deduplication no two aggregated records share an identity. -/
theorem claim2_dedup :
    (∀ (t v c k h : List Founder) (u : String),
        (dedupAll t v c k h).filter (fun f => decide (f.username = u)) =
          ((t ++ v ++ c ++ k ++ h).filter
              (fun f => decide (f.username = u))).take 1) ∧
    (∀ t v c k h : List Founder,
        ((dedupAll t v c k h).map Founder.username).Nodup) := by
  constructor
  · intro t v c k h u
    exact dedupBy_filter_take u (t ++ v ++ c ++ k ++ h) [] (by simp)
  · intro t v c k h
    exact dedupBy_nodup _ []

/-- C3.  The final sort is descending in the overall score, it neither
drops nor duplicates records, and it is stable: restricted to any one
score value the output preserves insertion order; in particular three
records inserted with overall scores 80, 95, 80 come out as the
95-record followed by the first and then the second 80-record. -/
theorem claim3_sort :
    (∀ l : List Founder,
        (sortByScoreDesc l).Pairwise (fun a b => scoreKey b ≤ scoreKey a)) ∧
    (∀ l : List Founder, (sortByScoreDesc l).Perm l) ∧
    (∀ (l : List Founder) (q : ℚ),
        (sortByScoreDesc l).filter (fun f => decide (scoreKey f = q)) =
          l.filter (fun f => decide (scoreKey f = q))) ∧
    sortByScoreDesc [ex80a, ex95, ex80b] = [ex95, ex80a, ex80b] := by
  refine ⟨pairwise_sortDesc, perm_sortDesc, filter_sortDesc, ?_⟩
  norm_num [sortByScoreDesc, insertDesc, scoreKey, ex80a, ex95, ex80b,
    Option.getD]

/-- C6, counterexample.  No independent-builder filter acts anywhere in
the pipeline: a record whose company and bio both carry the corporate
keyword google flows through aggregation, scoring and output
untouched, instead of being excluded as the claimed filter would
require. -/
theorem claim6_counterexample :
    containsKw "google" (lowerStr exCorp.company) = true ∧
    containsKw "google" (lowerStr exCorp.bioText) = true ∧
    (pipelineOutput [exCorp] [] [] [] []).map (fun o => o.username) =
      ["corpdev"] ∧
    (pipelineOutput [exCorp] [] [] [] []).map (fun o => o.company) =
      ["Google"] := by
  refine ⟨by decide, by decide, ?_, ?_⟩ <;> rfl

/-- C6, amended.  The code contains no independent-builder filter: the
output lists exactly the deduplicated records (as a permutation), with
company and bio texts passed through unchanged, so no record is ever
excluded for corporate affiliation. -/
theorem claim6_no_filter (t v c k h : List Founder) :
    ((pipelineOutput t v c k h).map
        (fun o => (o.username, o.company, o.bioText))).Perm
      ((dedupAll t v c k h).map
        (fun f => (f.username, f.company, f.bioText))) := by
  unfold pipelineOutput
  rw [List.map_map]
  refine ((perm_sortDesc ((dedupAll t v c k h).map calculate_score)).map
      _).trans ?_
  rw [List.map_map]
  rfl

/-- C7, counterexample.  In the end-to-end scenario with 500 stars
attributed to the record and 200 followers, the growth score computed
by the code is 100, not the 50 the age-normalised formula
min(100, totalStars / ageDays * 50) would give: the code derives growth
from followers / 10 + repo stars / 5 and consults no account age. -/
theorem claim7_counterexample :
    (mkScores exScenario).growth = 100 ∧ (50 : ℚ) < (mkScores exScenario).growth := by
  have hg : growth_raw exScenario = 100 := by
    norm_num [growth_raw, exScenario, min_def]
  have e1 : (mkScores exScenario).growth = 100 := by
    show round1 (growth_raw exScenario) = 100
    rw [hg]
    exact round1_eq_self (n := 1000) (by norm_num)
  exact ⟨e1, by rw [e1]; norm_num⟩

/-- The growth sub-score is an exact tenth, so the stored rounded value
coincides with the raw formula. -/
theorem growth_times_ten_int (a b : ℕ) :
    min (100 : ℚ) ((a : ℚ) / 10 + (b : ℚ) / 5) * 10 =
      ((min 1000 ((a : ℤ) + 2 * (b : ℤ)) : ℤ) : ℚ) := by
  rw [min_mul_of_nonneg _ _ (by norm_num : (0 : ℚ) ≤ 10)]
  push_cast
  congr 1
  · norm_num
  · ring

/-- C7, amended.  For every record the stored growth score equals
min(100, followers / 10 + repoStars / 5): it depends only on the
follower count and the attributed star count, account age plays no
role, and in the end-to-end scenario (200 followers, 500 stars) it is
100 rather than 50. -/
theorem claim7_growth (f : Founder) :
    (mkScores f).growth =
      min 100 ((f.followers : ℚ) / 10 + (f.repo_stars : ℚ) / 5) ∧
    (mkScores exScenario).growth = 100 := by
  constructor
  · show round1 (growth_raw f) = _
    exact round1_eq_self
      (n := min 1000 ((f.followers : ℤ) + 2 * (f.repo_stars : ℤ)))
      (growth_times_ten_int f.followers f.repo_stars)
  · have hg : growth_raw exScenario = 100 := by
      norm_num [growth_raw, exScenario, min_def]
    show round1 (growth_raw exScenario) = 100
    rw [hg]
    exact round1_eq_self (n := 1000) (by norm_num)

/-- C9.  One scoring variant is applied uniformly: the overall score of
every record is the weighted sum growth * 0.25 + velocity * 0.25 +
hiddenGem * 0.20 + pioneer * 0.30, where the velocity used is the
clamped base plus the AI-bio bonus of 10, the pioneer used is 50 plus
the discovery-method bonus plus the founder-bio bonus of 15, the method
bonus table reads 30/25/20/10/15 for trending, star-velocity,
contributor, keyword and model-hub records, the output is a permutation
of the one scorer applied to every aggregated record, and the overall
score is not clamped: the maximal record reaches 101. -/
theorem claim9_formula :
    (∀ f : Founder,
        overall_raw f =
          growth_raw f * (25 / 100) +
            (velocity_base f +
              (if bioHasAny f.bioText ai_kws then 10 else 0)) * (25 / 100) +
            hidden_raw f * (20 / 100) +
            ((50 + method_bonus f.discovery_method) +
              (if bioHasAny f.bioText founder_kws then 15 else 0)) * (30 / 100)) ∧
    method_bonus "trending" = 30 ∧
    method_bonus "star_velocity" = 25 ∧
    method_bonus "contributor" = 20 ∧
    method_bonus "keyword" = 10 ∧
    method_bonus "huggingface" = 15 ∧
    (∀ t v c k h : List Founder,
        (pipelineOutput t v c k h).Perm
          ((dedupAll t v c k h).map (fun f => toOutput (calculate_score f)))) ∧
    (mkScores exBig).overall_score = 101 ∧ (100 : ℚ) < (mkScores exBig).overall_score := by
  have hbf : bioHasAny "founder of ai" founder_kws = true := by decide
  have hba : bioHasAny "founder of ai" ai_kws = true := by decide
  have hg : growth_raw exBig = 100 := by
    norm_num [growth_raw, exBig, min_def]
  have hv : velocity_raw exBig = 110 := by
    norm_num [velocity_raw, velocity_base, exBig, min_def, hba]
  have hh : hidden_raw exBig = 100 := by
    norm_num [hidden_raw, exBig, min_def]
  have hp : pioneer_raw exBig = 95 := by
    have hm : method_bonus "trending" = 30 := by
      unfold method_bonus
      rw [if_pos rfl]
    simp [pioneer_raw, exBig, hbf, hm]
    norm_num
  have hov : overall_raw exBig = 101 := by
    simp only [overall_raw, hg, hv, hh, hp]
    norm_num
  have hfin : (mkScores exBig).overall_score = 101 := by
    show round1 (overall_raw exBig) = 101
    rw [hov]
    exact round1_eq_self (n := 1010) (by norm_num)
  refine ⟨?_, ?_, ?_, ?_, ?_, ?_, ?_, hfin, by rw [hfin]; norm_num⟩
  · intro f
    simp only [overall_raw, velocity_raw, pioneer_raw]
  · unfold method_bonus; rw [if_pos rfl]
  · unfold method_bonus; rw [if_neg (by decide), if_pos rfl]
  · unfold method_bonus
    rw [if_neg (by decide), if_neg (by decide), if_pos rfl]
  · unfold method_bonus
    rw [if_neg (by decide), if_neg (by decide), if_neg (by decide), if_pos rfl]
  · unfold method_bonus
    rw [if_neg (by decide), if_neg (by decide), if_neg (by decide),
      if_neg (by decide), if_pos rfl]
  · intro t v c k h
    unfold pipelineOutput
    refine ((perm_sortDesc ((dedupAll t v c k h).map calculate_score)).map
        toOutput).trans ?_
    rw [List.map_map]
    rfl

/-- C4.  When the credential variable is absent, the run prints the
diagnostic, returns before any adapter activity (so the trace holds no
network request) and writes no output file; the output is `none`. -/
theorem claim4_missing_token (adapterNet : List MEv) (t v c k h : List Founder) :
    (mainRun none adapterNet t v c k h).2 = none ∧
    MEv.printMsg "GITHUB_TOKEN not set" ∈ (mainRun none adapterNet t v c k h).1 ∧
    (mainRun none adapterNet t v c k h).1.countP isNetEv = 0 ∧
    (mainRun none adapterNet t v c k h).1.countP isWriteEv = 0 := by
  have htr : (mainRun none adapterNet t v c k h).1 =
      [MEv.printMsg sep50,
       MEv.printMsg "FOUNDER SCOUT - Advanced Discovery System",
       MEv.printMsg sep50,
       MEv.printMsg "GITHUB_TOKEN not set"] := rfl
  refine ⟨rfl, ?_, ?_, ?_⟩ <;> rw [htr] <;> decide

/-- A non-empty keyword is never contained in the empty string. -/
theorem containsKw_empty {kw : String} (h : kw ≠ "") :
    containsKw kw "" = false := by
  cases kw with
  | mk d =>
      cases d with
      | nil => exact absurd rfl h
      | cons c cs => rfl

/-- C5.  The region filter is a case-insensitive substring match: for
any keyword set whose keywords are non-empty, absent text and empty
text never match, while the location Bengaluru, India matches both
keyword allowlists of the code. -/
theorem claim5_region :
    (∀ kws : List String, (∀ kw ∈ kws, kw ≠ "") →
        matchesRegion none kws = false ∧
        matchesRegion (some "") kws = false) ∧
    matchesRegion (some "Bengaluru, India") india_keywords_trending = true ∧
    matchesRegion (some "Bengaluru, India") india_keywords_velocity = true := by
  refine ⟨?_, by decide, by decide⟩
  intro kws hne
  have hgen : ∀ t : Option String, pyOrStr t "" = "" →
      matchesRegion t kws = false := by
    intro t ht
    unfold matchesRegion
    rw [ht]
    rw [List.any_eq_false]
    intro kw hkw
    have : containsKw kw (lowerStr "") = false := containsKw_empty (hne kw hkw)
    simp [this]
  exact ⟨hgen none rfl, hgen (some "") rfl⟩

/-- C5, witness at the trending keyword allowlist. -/
theorem claim5_region_witness :
    matchesRegion none india_keywords_trending = false ∧
    matchesRegion (some "") india_keywords_trending = false :=
  claim5_region.1 india_keywords_trending (by decide)

/-- C8, counterexample.  On a rate-limited (403) user response the call
issues exactly one request, sleeps zero times (in particular there is
no 60-unit pause) and returns absent data: no retry of any kind
happens. -/
theorem claim8_counterexample :
    get_repo_owner_details "ratelimited/repo" exUser403 exRepoOk =
      ([Ev.request "https://api.github.com/users/ratelimited"], none) ∧
    (get_repo_owner_details "ratelimited/repo" exUser403 exRepoOk).1.countP
        isSleepEv = 0 ∧
    (get_repo_owner_details "ratelimited/repo" exUser403 exRepoOk).1.countP
        isRequestEv = 1 := by
  refine ⟨?_, ?_, ?_⟩ <;> decide

/-- C8, amended.  Every non-success status, the rate-limit status 403
included, is treated as absent data with no pause and no retry: the
owner lookup returns immediately after its single request, and a failed
search query contributes nothing while the adapter continues with the
remaining queries. -/
theorem claim8_no_retry :
    (∀ (repo_path : String) (uresp : HttpResp UserJson)
        (rresp : HttpResp RepoJson), uresp.status ≠ 200 →
        get_repo_owner_details repo_path uresp rresp =
          ([Ev.request (userUrl (ownerOf repo_path))], none)) ∧
    (∀ (oracle : String → HttpResp UserJson)
        (q : HttpResp (List RepoItem))
        (rest : List (HttpResp (List RepoItem))), q.status ≠ 200 →
        find_rising_stars oracle (q :: rest) = find_rising_stars oracle rest) := by
  constructor
  · intro repo_path uresp rresp h
    simp only [get_repo_owner_details]
    rw [if_pos h]
  · intro oracle q rest h
    unfold find_rising_stars
    rw [List.foldl_cons]
    have hq : velocityQuery oracle ([], []) q = ([], []) := by
      unfold velocityQuery
      rw [if_neg h]
    rw [hq]

/-- C8, witness: a 404 owner lookup and a 500 search query. -/
theorem claim8_no_retry_witness :
    get_repo_owner_details "a/b" exUser404 exRepoOk =
      ([Ev.request (userUrl (ownerOf "a/b"))], none) ∧
    find_rising_stars exOracle404 [exSearch500] =
      find_rising_stars exOracle404 [] :=
  ⟨claim8_no_retry.1 "a/b" exUser404 exRepoOk (by decide),
   claim8_no_retry.2 exOracle404 exSearch500 [] (by decide)⟩

/-- C10.  The scorer is deterministic and frame-preserving: on equal
inputs it yields equal outputs, the result is the input record with
exactly the scores dictionary and the top-level overall score set (the
latter equal to the overall entry of the former), and every
pre-existing field is unchanged. -/
theorem claim10_frame (f g : Founder) (h : f = g) :
    calculate_score f = calculate_score g ∧
    calculate_score f =
      { f with scores := some (mkScores f)
               overall_score := some ((mkScores f).overall_score) } ∧
    (calculate_score f).scores = some (mkScores f) ∧
    (calculate_score f).overall_score = some ((mkScores f).overall_score) ∧
    (calculate_score f).username = f.username ∧
    (calculate_score f).name = f.name ∧
    (calculate_score f).bioText = f.bioText ∧
    (calculate_score f).locationText = f.locationText ∧
    (calculate_score f).followers = f.followers ∧
    (calculate_score f).public_repos = f.public_repos ∧
    (calculate_score f).trending_repo = f.trending_repo ∧
    (calculate_score f).repo_stars = f.repo_stars ∧
    (calculate_score f).repo_description = f.repo_description ∧
    (calculate_score f).contributed_to = f.contributed_to ∧
    (calculate_score f).contributions = f.contributions ∧
    (calculate_score f).discovery_method = f.discovery_method ∧
    (calculate_score f).avatar_url = f.avatar_url ∧
    (calculate_score f).html_url = f.html_url ∧
    (calculate_score f).company = f.company ∧
    (calculate_score f).blog = f.blog ∧
    (calculate_score f).twitter = f.twitter := by
  subst h
  exact ⟨rfl, rfl, rfl, rfl, rfl, rfl, rfl, rfl, rfl, rfl, rfl, rfl, rfl,
    rfl, rfl, rfl, rfl, rfl, rfl, rfl, rfl⟩

/-- C10, witness at a concrete record. -/
theorem claim10_frame_witness :
    calculate_score exPlain = calculate_score exPlain ∧
    (calculate_score exPlain).scores = some (mkScores exPlain) :=
  ⟨(claim10_frame exPlain exPlain rfl).1,
   (claim10_frame exPlain exPlain rfl).2.2.1⟩
